import Mathlib

/-
Verification of the sprite-rendering core of Reggie Next (spritelib.py)
against its natural-language specification.

Shallow embedding conventions:
* Qt float geometry (QRectF, positions, scale factors) is modelled over ℚ;
  the concrete values involved (multiples of 1.5, 0.75, …) are exact rationals.
* Integer zone coordinates are modelled over ℤ; a Qt rect used for zone
  hit-testing is modelled by its getCoords tuple (left, top, right, bottom),
  with contains(x, y) true iff left ≤ x ≤ right and top ≤ y ≤ bottom
  (Qt's inclusive-edge semantics).
* Painter calls are modelled as the list of draw primitives emitted;
  pen/brush/clip configuration is styling and is not part of the claims.
* Python dicts used as caches are modelled as functions into Option
  (none = key absent); a cache entry that holds Python None is Option.none
  in the inner layer.
* Fallible operations (AttributeError on None.main, ValueError in setZoneID)
  are modelled with Option / explicit "raised" flags; the state returned on
  the raising path is the state at raise time, which equals the input state
  because the source mutates nothing before raising.
-/

namespace Spritelib

/-- A Qt QRectF, modelled by x, y, width, height over ℚ. -/
structure RectF where
  x : ℚ
  y : ℚ
  w : ℚ
  h : ℚ
deriving DecidableEq

/-!  ## Spritebox (spritelib.py, class Spritebox)  -/

/-- State of a `Spritebox` instance: `shown`, offsets, size and scale. -/
structure Spritebox where
  shown : Bool
  xOffset : ℚ
  yOffset : ℚ
  width : ℚ
  height : ℚ
  scale : ℚ
deriving DecidableEq

/-- `Spritebox.__init__(scale=1.5)`: shown=True, offsets 0, size 16×16. -/
def Spritebox.init (scale : ℚ) : Spritebox :=
  { shown := true, xOffset := 0, yOffset := 0, width := 16, height := 16, scale := scale }

/-- `Spritebox.getDimensions`. -/
def Spritebox.getDimensions (s : Spritebox) : ℚ × ℚ × ℚ × ℚ :=
  (s.xOffset, s.yOffset, s.width, s.height)

/-- `Spritebox.setDimensions`. -/
def Spritebox.setDimensions (s : Spritebox) (new : ℚ × ℚ × ℚ × ℚ) : Spritebox :=
  { s with xOffset := new.1, yOffset := new.2.1, width := new.2.2.1, height := new.2.2.2 }

/-- `Spritebox.delDimensions`. -/
def Spritebox.delDimensions (s : Spritebox) : Spritebox :=
  s.setDimensions (0, 0, 16, 16)

/-- `Spritebox.getRR` (RoundedRect getter). -/
def Spritebox.getRR (s : Spritebox) : RectF :=
  { x := s.xOffset * s.scale + 1
    y := s.yOffset * s.scale + 1
    w := s.width * s.scale - 2
    h := s.height * s.scale - 2 }

/-- `Spritebox.setRR` (RoundedRect setter). -/
def Spritebox.setRR (s : Spritebox) (new : RectF) : Spritebox :=
  s.setDimensions
    (new.x / s.scale - 1, new.y / s.scale - 1, new.w / s.scale + 2, new.h / s.scale + 2)

/-- `Spritebox.getBR` (BoundingRect getter). -/
def Spritebox.getBR (s : Spritebox) : RectF :=
  { x := s.xOffset * s.scale
    y := s.yOffset * s.scale
    w := s.width * s.scale
    h := s.height * s.scale }

/-- `Spritebox.setBR` (BoundingRect setter).  Note: the source multiplies the
incoming rect's components by `scale`, it does not divide. -/
def Spritebox.setBR (s : Spritebox) (new : RectF) : Spritebox :=
  s.setDimensions
    (new.x * s.scale, new.y * s.scale, new.w * s.scale, new.h * s.scale)

/-!  ## SpriteImage (spritelib.py, class SpriteImage)  -/

/-- State of a `SpriteImage` instance (fields relevant to geometry;
the primary image handle is an opaque token, `aux` items are tracked by id). -/
structure SpriteImage where
  alpha : ℚ
  image : Option ℕ
  spritebox : Spritebox
  xOffset : ℚ
  yOffset : ℚ
  width : ℚ
  height : ℚ
  scale : ℚ
  aux : List ℕ
deriving DecidableEq

/-- `SpriteImage.__init__(parent, scale=1.5)`: dimensions default 0,0,16,16. -/
def SpriteImage.init (scale : ℚ) : SpriteImage :=
  { alpha := 1, image := none, spritebox := Spritebox.init scale
    xOffset := 0, yOffset := 0, width := 16, height := 16, scale := scale, aux := [] }

/-- `SpriteImage.getDimensions`. -/
def SpriteImage.getDimensions (s : SpriteImage) : ℚ × ℚ × ℚ × ℚ :=
  (s.xOffset, s.yOffset, s.width, s.height)

/-- `SpriteImage.setDimensions`. -/
def SpriteImage.setDimensions (s : SpriteImage) (new : ℚ × ℚ × ℚ × ℚ) : SpriteImage :=
  { s with xOffset := new.1, yOffset := new.2.1, width := new.2.2.1, height := new.2.2.2 }

/-- `SpriteImage.delDimensions`. -/
def SpriteImage.delDimensions (s : SpriteImage) : SpriteImage :=
  s.setDimensions (0, 0, 16, 16)

/-!  ## AuxiliaryTrackObject (spritelib.py)  -/

/-- Track direction; the source uses the class constants Horizontal = 1,
Vertical = 2. -/
inductive TrackDirection where
  | Horizontal
  | Vertical
deriving DecidableEq

/-- A draw primitive emitted during `paint`; arguments follow the Qt calls
`drawLine(x1, y1, x2, y2)` and `drawEllipse(x, y, w, h)` (ellipse given by
its bounding rect). -/
inductive DrawCmd where
  | line (x1 y1 x2 y2 : ℚ)
  | ellipse (x y w h : ℚ)
deriving DecidableEq

/-- State of an `AuxiliaryTrackObject` after construction. -/
structure AuxiliaryTrackObject where
  boundingRect : RectF
  posX : ℚ
  posY : ℚ
  width : ℚ
  height : ℚ
  direction : TrackDirection
deriving DecidableEq

/-- `AuxiliaryTrackObject.__init__(parent, width, height, direction)`:
BoundingRect = QRectF(0, 0, width*1.5, height*1.5), position (0,0). -/
def AuxiliaryTrackObject.init (width height : ℚ) (direction : TrackDirection) :
    AuxiliaryTrackObject :=
  { boundingRect := { x := 0, y := 0, w := width * (3/2), h := height * (3/2) }
    posX := 0, posY := 0, width := width, height := height, direction := direction }

/-- `AuxiliaryTrackObject.paint`, as the list of draw primitives emitted
(the pen/clip setup carries no geometry). -/
def AuxiliaryTrackObject.paint (t : AuxiliaryTrackObject) : List DrawCmd :=
  match t.direction with
  | .Horizontal =>
      let lineY := t.height * (3/4)
      [ .line 20 lineY (t.width * (3/2) - 20) lineY,
        .ellipse 8 (lineY - 4) 8 8,
        .ellipse (t.width * (3/2) - 16) (lineY - 4) 8 8 ]
  | .Vertical =>
      let lineX := t.width * (3/4)
      [ .line lineX 20 lineX (t.height * (3/2) - 20),
        .ellipse (lineX - 4) 8 8 8,
        .ellipse (lineX - 4) (t.height * (3/2) - 16) 8 8 ]

/-!  ## MapPositionToZoneID (spritelib.py)  -/

/-- A zone's rectangle, modelled by its `getCoords()` tuple
(left, top, right, bottom) over ℤ. -/
structure ZRect where
  l : ℤ
  t : ℤ
  r : ℤ
  b : ℤ
deriving DecidableEq, Inhabited

/-- Qt `rect.contains(x, y)`: inside or on the edge. -/
def ZRect.containsPt (rc : ZRect) (x y : ℤ) : Bool :=
  (rc.l ≤ x && x ≤ rc.r) && (rc.t ≤ y && y ≤ rc.b)

/-- A zone as consumed by `MapPositionToZoneID`: a stable id and a rect. -/
structure Zone where
  id : ℤ
  ZoneRect : ZRect
deriving DecidableEq, Inhabited

/-- The squared edge distance accumulated by the loop body of
`MapPositionToZoneID`: zero contribution on an axis where the point is within
the rect's span. -/
def zoneDist (x y : ℤ) (rc : ZRect) : ℤ :=
  (if x < rc.l then (rc.l - x) ^ 2 else if rc.r < x then (x - rc.r) ^ 2 else 0)
  + (if y < rc.t then (rc.t - y) ^ 2 else if rc.b < y then (y - rc.b) ^ 2 else 0)

/-- The loop of `MapPositionToZoneID`: `i` is the running index,
`md` is `minimumdist`, `mi` is `match_index` (both start at -1);
a containing zone breaks out of the loop returning its index. -/
def mapAux (x y : ℤ) : List Zone → ℕ → ℤ → ℤ → ℤ
  | [], _, _, mi => mi
  | z :: rest, i, md, mi =>
      if z.ZoneRect.containsPt x y then (i : ℤ)
      else
        let d := zoneDist x y z.ZoneRect
        if d < md ∨ md = -1 then mapAux x y rest (i + 1) d (i : ℤ)
        else mapAux x y rest (i + 1) md mi

/-- `MapPositionToZoneID(zones, x, y, get_id=False)`: returns -1 on failure,
else the matched index, or the matched zone's id when `get_id` is true. -/
def MapPositionToZoneID (zones : List Zone) (x y : ℤ) (get_id : Bool := false) : ℤ :=
  let m := mapAux x y zones 0 (-1) (-1)
  if m = -1 then -1
  else if get_id then (zones.getD m.toNat default).id
  else m

/-- First-argmin helper used to specify the no-containing-zone behaviour of
`MapPositionToZoneID`: returns the least squared edge distance over the list
together with the index of its first occurrence.  (Specification device for
the proofs; the executable translation of the loop is `mapAux`.) -/
def bestPair (x y : ℤ) : List Zone → Option (ℕ × ℤ)
  | [] => none
  | z :: rest =>
      match bestPair x y rest with
      | none => some (0, zoneDist x y z.ZoneRect)
      | some (j, d) =>
          if zoneDist x y z.ZoneRect ≤ d then some (0, zoneDist x y z.ZoneRect)
          else some (j + 1, d)

/-!  ## Tile table (spritelib.py, main / GetTile)  -/

/-- A loaded tile object; `main` is its image (an opaque token). -/
structure Tile where
  main : ℕ
deriving DecidableEq

/-- The "Unknown Tile" override slot index, `4 * 0x200 + 64`. -/
def unknownTileIndex : ℕ := 4 * 0x200 + 64

/-- `GetTile(tile_id)`: the tile table is a mapping from id to an optional
loaded tile (none = empty slot / Python None).  Accessing `.main` on an empty
fallback is the AttributeError path, modelled as `none`. -/
def GetTile (tiles : ℕ → Option Tile) (tile_id : ℕ) : Option ℕ :=
  let tile := tiles tile_id
  let tile2 := if tile = none then tiles unknownTileIndex else tile
  tile2.map Tile.main

/-!  ## Image cache (spritelib.py, GetImg / loadIfNotInImageCache)  -/

/-- `os.path.join` for the two-argument uses in `GetImg`. -/
def joinPath (a b : String) : String := a ++ "/" ++ b

/-- `GetImg(imgname)` (pixmap variant, `image=False`): searches the override
folders most-recently-added first, falls back to the base folder, and returns
the loaded image --- represented by the path it was decoded from --- or `none`
with a logged warning when no file exists.  `isFile` is the filesystem
predicate (`os.path.isfile`), `folders` is `SpritesFolders`. -/
def GetImg (isFile : String → Bool) (folders : List String) (imgname : String) :
    Option String :=
  let base := joinPath (joinPath "reggiedata" "sprites") imgname
  let path :=
    match folders.reverse.find? (fun folder => isFile (joinPath folder imgname)) with
    | some folder => joinPath folder imgname
    | none => base
  if isFile path then some path else none

/-- `loadIfNotInImageCache(name, filename)`: the cache maps a name to an
optional entry, the entry itself being the (possibly `none`) result of
`GetImg`.  Returns the new cache and whether a load was performed. -/
def loadIfNotInImageCache (isFile : String → Bool) (folders : List String)
    (cache : String → Option (Option String)) (name filename : String) :
    (String → Option (Option String)) × Bool :=
  match cache name with
  | some _ => (cache, false)
  | none => (fun k => if k = name then some (GetImg isFile folders filename) else cache k, true)

/-!  ## AuxiliaryZoneItem.setZoneID (spritelib.py)  -/

/-- A zone as seen by `AuxiliaryZoneItem`: a stable id and its `aux` set of
auxiliary items (tracked by item id). -/
structure ZoneRec where
  id : ℤ
  aux : List ℕ
deriving DecidableEq, Inhabited

/-- An `AuxiliaryZoneItem`: its identity and its parent link, the latter as an
index into the area's zone list (object identity of the parent zone). -/
structure ZoneAuxItem where
  itemId : ℕ
  parent : Option ℕ
deriving DecidableEq

/-- Python `set.add`: no-op when already present. -/
def auxAdd (l : List ℕ) (n : ℕ) : List ℕ := if n ∈ l then l else n :: l

/-- Replace the element at an index, identity elsewhere. -/
def listModify : List ZoneRec → ℕ → (ZoneRec → ZoneRec) → List ZoneRec
  | [], _, _ => []
  | a :: l, 0, f => f a :: l
  | a :: l, n + 1, f => a :: listModify l n f

/-- The zone-search loop of `setZoneID`: `for iterz in Area.zones:
if iterz.id == id: z = iterz` --- the LAST match wins, no break. -/
def findLastZoneIdxAux (id : ℤ) : List ZoneRec → ℕ → Option ℕ → Option ℕ
  | [], _, acc => acc
  | z :: rest, k, acc =>
      findLastZoneIdxAux id rest (k + 1) (if z.id = id then some k else acc)

/-- Index (into the zone list) of the zone found by `setZoneID`'s search. -/
def findLastZoneIdx (zones : List ZoneRec) (id : ℤ) : Option ℕ :=
  findLastZoneIdxAux id zones 0 none

/-- `AuxiliaryZoneItem.setZoneID(id)`.  Result: (raised, area zones, item).
The area is `none` when the global Area object has no `zones` attribute
(the `hasattr` guard: silent return).  On the ValueError path nothing was
mutated before the raise, so the state returned is the input state. -/
def setZoneID (area : Option (List ZoneRec)) (item : ZoneAuxItem) (id : ℤ) :
    Bool × Option (List ZoneRec) × ZoneAuxItem :=
  match area with
  | none => (false, none, item)
  | some zones =>
      match findLastZoneIdx zones id with
      | none => (true, some zones, item)
      | some j =>
          let zones1 :=
            match item.parent with
            | none => zones
            | some p => listModify zones p
                (fun zr => { zr with aux := zr.aux.erase item.itemId })
          let zones2 := listModify zones1 j
            (fun zr => { zr with aux := auxAdd zr.aux item.itemId })
          (false, some zones2, { item with parent := some j })

/-!  ## AuxiliaryImage_FollowsRect (spritelib.py)  -/

/-- Qt alignment flag values used by the source. -/
def AlignLeft : ℕ := 0x1
def AlignRight : ℕ := 0x2
def AlignHCenter : ℕ := 0x4
def AlignTop : ℕ := 0x20
def AlignBottom : ℕ := 0x40
def AlignVCenter : ℕ := 0x80

/-- `self.flagPresent = lambda flags, flag: flags | flag == flags`. -/
def flagPresent (flags flag : ℕ) : Bool := flags ||| flag == flags

/-- A pixmap value: either the full original or `realimage.copy(0, 0, w, h)`. -/
inductive PixSrc where
  | whole (p : ℕ)
  | crop (p : ℕ) (x y w h : ℚ)
deriving DecidableEq

/-- State of an `AuxiliaryImage_FollowsRect`.  The parent sprite is modelled
by its absolute coordinates plus a liveness flag (the `RuntimeError` catch);
`hasScene` is whether `self.scene()` is non-None. -/
structure FollowsRect where
  alignment : ℕ
  realwidth : ℚ
  realheight : ℚ
  realimage : Option ℕ
  width : ℚ
  height : ℚ
  image : Option PixSrc
  posX : ℚ
  posY : ℚ
  boundingRect : RectF
  parentX : ℚ
  parentY : ℚ
  parentAlive : Bool
  hasScene : Bool
deriving DecidableEq

/-- Effective width used by `move`: `self.width = self.realwidth;
if w < self.width: self.width = w`. -/
def FollowsRect.effWidth (s : FollowsRect) (w : ℚ) : ℚ :=
  if w < s.realwidth then w else s.realwidth

/-- Effective height used by `move`. -/
def FollowsRect.effHeight (s : FollowsRect) (h : ℚ) : ℚ :=
  if h < s.realheight then h else s.realheight

/-- The image update performed by `move`: crop the retained full-resolution
image when the size shrank, else use it whole; no realimage, no change. -/
def FollowsRect.moveImage (s : FollowsRect) (w h : ℚ) : Option PixSrc :=
  match s.realimage with
  | none => s.image
  | some p =>
      if w < s.realwidth ∨ h < s.realheight then some (.crop p 0 0 w h)
      else some (.whole p)

/-- The new parent-relative position computed by `move` from the alignment
anchor, before the early-return comparison with the current position. -/
def FollowsRect.computedNewPos (s : FollowsRect) (x y w h : ℚ) : ℚ × ℚ :=
  let wi := s.effWidth w
  let hi := s.effHeight h
  let ax :=
    if flagPresent s.alignment AlignLeft then x
    else if flagPresent s.alignment AlignRight then x + w - wi
    else x + w / 2 - wi / 2
  let ay :=
    if flagPresent s.alignment AlignTop then y
    else if flagPresent s.alignment AlignBottom then y + h - hi
    else y + h / 2 - hi / 2
  (ax - s.parentX, ay - s.parentY)

/-- The field mutations `move` performs before the position comparison. -/
def FollowsRect.moveState (s : FollowsRect) (w h : ℚ) : FollowsRect :=
  { s with width := s.effWidth w, height := s.effHeight h, image := s.moveImage w h }

/-- Effects of one `move` call: whether `setPos` ran and whether
`scene().update(...)` ran. -/
structure MoveEffect where
  setPosCalled : Bool
  sceneUpdated : Bool
deriving DecidableEq

/-- `AuxiliaryImage_FollowsRect.move(x, y, w, h)`: returns the new state and
the effects performed.  The dead-parent (`RuntimeError`) path returns after
the width/height/image mutations but before any repositioning. -/
def FollowsRect.move (s : FollowsRect) (x y w h : ℚ) : FollowsRect × MoveEffect :=
  let s1 := s.moveState w h
  if s.parentAlive = false then (s1, ⟨false, false⟩)
  else
    let np := s.computedNewPos x y w h
    if np.1 = s.posX ∧ np.2 = s.posY then (s1, ⟨false, false⟩)
    else ({ s1 with posX := np.1, posY := np.2 }, ⟨true, s.hasScene⟩)

/-!  ## Theorems  -/

/-- C1 counterexample: for the horizontal track constructed with width=100,
height=16, `paint` emits no line at y=18; the claimed line `(20,18)-(130,18)`
is not among the draw primitives (the source computes `lineY = height*0.75`,
which is 12 here). -/
theorem track_line_y18_refuted :
    DrawCmd.line 20 18 130 18 ∉
      (AuxiliaryTrackObject.init 100 16 .Horizontal).paint := by
  norm_num [AuxiliaryTrackObject.paint, AuxiliaryTrackObject.init]
  exact ⟨fun h => DrawCmd.noConfusion h, fun h => DrawCmd.noConfusion h⟩

/-- C1 (amended): for the horizontal track with width=100, height=16, the
bounding rect is (0,0,150,24) and paint draws the line at y = 12
(height*0.75) from x=20 to x=130, with 8-unit-diameter circles of centers
(12,12) and (138,12), i.e. inset 12 units from each horizontal edge. -/
theorem track_horizontal_geometry :
    (AuxiliaryTrackObject.init 100 16 .Horizontal).boundingRect
        = { x := 0, y := 0, w := 150, h := 24 }
    ∧ (AuxiliaryTrackObject.init 100 16 .Horizontal).paint
        = [ .line 20 12 130 12, .ellipse 8 8 8 8, .ellipse 134 8 8 8 ] := by
  constructor
  · norm_num [AuxiliaryTrackObject.init]
  · norm_num [AuxiliaryTrackObject.init, AuxiliaryTrackObject.paint]

/-- C2 counterexample: with scale=1.5, setting the BoundingRect to
R=(3,3,3,3) does not set the dimensions to (R.x/scale, R.y/scale, R.w/scale,
R.h/scale) = (2,2,2,2); the source multiplies by the scale instead. -/
theorem setBR_divide_refuted :
    ((Spritebox.init (3/2)).setBR { x := 3, y := 3, w := 3, h := 3 }).getDimensions
      ≠ (3 / (3/2 : ℚ), 3 / (3/2 : ℚ), 3 / (3/2 : ℚ), 3 / (3/2 : ℚ)) := by
  norm_num [Spritebox.setBR, Spritebox.setDimensions, Spritebox.getDimensions,
    Spritebox.init, Prod.ext_iff]

/-- C2 (amended): for every Spritebox with nonzero scale and every rect R,
setting RoundedRect to R sets the dimensions to
(R.x/scale - 1, R.y/scale - 1, R.w/scale + 2, R.h/scale + 2), and setting
BoundingRect to R sets the dimensions to
(R.x*scale, R.y*scale, R.w*scale, R.h*scale) --- the BR setter multiplies by
the scale, it is not the inverse of the BR getter. -/
theorem spritebox_set_derived_rects (s : Spritebox) (R : RectF) (hs : s.scale ≠ 0) :
    (s.setRR R).getDimensions
        = (R.x / s.scale - 1, R.y / s.scale - 1, R.w / s.scale + 2, R.h / s.scale + 2)
    ∧ (s.setBR R).getDimensions
        = (R.x * s.scale, R.y * s.scale, R.w * s.scale, R.h * s.scale) := by
  exact ⟨rfl, rfl⟩

/-- C2 witness: the amended theorem applied at scale 1.5, R = (3,3,3,3). -/
theorem spritebox_set_derived_rects_witness :
    ((Spritebox.init (3/2)).setRR { x := 3, y := 3, w := 3, h := 3 }).getDimensions
        = (1, 1, 4, 4)
    ∧ ((Spritebox.init (3/2)).setBR { x := 3, y := 3, w := 3, h := 3 }).getDimensions
        = (9/2, 9/2, 9/2, 9/2) := by
  have h := spritebox_set_derived_rects (Spritebox.init (3/2))
    { x := 3, y := 3, w := 3, h := 3 } (by norm_num [Spritebox.init])
  exact ⟨h.1.trans (by norm_num [Spritebox.init]), h.2.trans (by norm_num [Spritebox.init])⟩

/-- C4: for every tile table and every id below 256 whose slot holds no
loaded tile, `GetTile(id)` returns the same image as `GetTile` applied to the
fallback slot `4*0x200+64`. -/
theorem getTile_empty_slot_fallback (tiles : ℕ → Option Tile) (id : ℕ)
    (hid : id < 256) (hempty : tiles id = none) :
    GetTile tiles id = GetTile tiles unknownTileIndex := by
  unfold GetTile
  rw [hempty]
  cases h : tiles unknownTileIndex <;> simp [h]

/-- Tile table used to witness C4: only the fallback slot is loaded. -/
def witnessTiles : ℕ → Option Tile :=
  fun n => if n = unknownTileIndex then some ⟨5⟩ else none

/-- C4 witness: the theorem applied to a table whose slot 0 is empty. -/
theorem getTile_empty_slot_fallback_witness :
    GetTile witnessTiles 0 = GetTile witnessTiles unknownTileIndex :=
  getTile_empty_slot_fallback witnessTiles 0 (by decide) (by decide)

/-- C6: for every Spritebox, the RoundedRect getter returns
((x*scale)+1, (y*scale)+1, (w*scale)-2, (h*scale)-2) and the BoundingRect
getter returns (x*scale, y*scale, w*scale, h*scale), recomputed from the
current fields; at offset=(0,0), size=(16,16), scale=1.5 these are
(1,1,22,22) and (0,0,24,24). -/
theorem spritebox_derived_rect_getters (s : Spritebox) :
    s.getRR = { x := s.xOffset * s.scale + 1, y := s.yOffset * s.scale + 1,
                w := s.width * s.scale - 2, h := s.height * s.scale - 2 }
    ∧ s.getBR = { x := s.xOffset * s.scale, y := s.yOffset * s.scale,
                  w := s.width * s.scale, h := s.height * s.scale }
    ∧ (Spritebox.init (3/2)).getRR = { x := 1, y := 1, w := 22, h := 22 }
    ∧ (Spritebox.init (3/2)).getBR = { x := 0, y := 0, w := 24, h := 24 } := by
  refine ⟨rfl, rfl, ?_, ?_⟩ <;>
    norm_num [Spritebox.init, Spritebox.getRR, Spritebox.getBR]

/-- C8: for every dimensions tuple D and every SpriteImage or Spritebox,
`setDimensions(D)` followed by `getDimensions()` returns D exactly. -/
theorem setDimensions_getDimensions_roundtrip (si : SpriteImage) (sb : Spritebox)
    (D : ℚ × ℚ × ℚ × ℚ) :
    (si.setDimensions D).getDimensions = D ∧ (sb.setDimensions D).getDimensions = D := by
  obtain ⟨a, b, c, d⟩ := D
  exact ⟨rfl, rfl⟩

/-- C9: `loadIfNotInImageCache` is idempotent: when a cache entry for the
name exists, the call performs no load and returns the cache unchanged; it
populates an entry (and loads) only when the name is absent. -/
theorem loadIfNotInImageCache_idempotent (isFile : String → Bool)
    (folders : List String) (cache : String → Option (Option String))
    (name filename : String) :
    (∀ e, cache name = some e →
        loadIfNotInImageCache isFile folders cache name filename = (cache, false))
    ∧ (cache name = none →
        (loadIfNotInImageCache isFile folders cache name filename).1 name
            = some (GetImg isFile folders filename)
        ∧ (loadIfNotInImageCache isFile folders cache name filename).2 = true) := by
  constructor
  · intro e he
    unfold loadIfNotInImageCache
    rw [he]
  · intro he
    unfold loadIfNotInImageCache
    rw [he]
    simp

/-- Cache used to witness C9: one entry, for the name "a". -/
def witnessCache : String → Option (Option String) :=
  fun k => if k = "a" then some (some "img") else none

/-- C9 witness: a second call for the already-present name "a" returns the
cache unchanged and performs no load. -/
theorem loadIfNotInImageCache_idempotent_witness :
    loadIfNotInImageCache (fun _ => false) [] witnessCache "a" "f"
      = (witnessCache, false) :=
  (loadIfNotInImageCache_idempotent (fun _ => false) [] witnessCache "a" "f").1
    (some "img") rfl

/-- C10: when no file for the image exists in any override folder or in the
base folder, `GetImg` returns None; `loadIfNotInImageCache` stores that None
as the (present) cache entry; and every later call with the same name is a
no-op that never retries the load, so the entry stays None. -/
theorem getImg_missing_cached_none (isFile : String → Bool) (folders : List String)
    (cache : String → Option (Option String)) (name filename : String)
    (hfolders : ∀ folder ∈ folders, isFile (joinPath folder filename) = false)
    (hbase : isFile (joinPath (joinPath "reggiedata" "sprites") filename) = false)
    (habsent : cache name = none) :
    GetImg isFile folders filename = none
    ∧ (loadIfNotInImageCache isFile folders cache name filename).1 name = some none
    ∧ (∀ filename2,
        loadIfNotInImageCache isFile folders
            (loadIfNotInImageCache isFile folders cache name filename).1 name filename2
          = ((loadIfNotInImageCache isFile folders cache name filename).1, false)) := by
  have hfind : folders.reverse.find? (fun folder => isFile (joinPath folder filename))
      = none := by
    rw [List.find?_eq_none]
    intro folder hf
    simp [hfolders folder (List.mem_reverse.mp hf)]
  have himg : GetImg isFile folders filename = none := by
    unfold GetImg
    rw [hfind]
    simp [hbase]
  refine ⟨himg, ?_, ?_⟩
  · unfold loadIfNotInImageCache
    rw [habsent]
    simp [himg]
  · intro filename2
    have hpresent : (loadIfNotInImageCache isFile folders cache name filename).1 name
        = some none := by
      unfold loadIfNotInImageCache
      rw [habsent]
      simp [himg]
    exact (loadIfNotInImageCache_idempotent isFile folders
      (loadIfNotInImageCache isFile folders cache name filename).1 name filename2).1
      none hpresent

/-- C10 witness: the theorem applied with an empty filesystem and cache. -/
theorem getImg_missing_cached_none_witness :
    GetImg (fun _ => false) [] "f" = none
    ∧ (loadIfNotInImageCache (fun _ => false) [] (fun _ => none) "a" "f").1 "a"
        = some none := by
  have h := getImg_missing_cached_none (fun _ => false) [] (fun _ => none) "a" "f"
    (by intro folder hf; cases hf) rfl rfl
  exact ⟨h.1, h.2.1⟩

/-- On a list with no matching id, the zone-search loop returns its
accumulator. -/
theorem findLastZoneIdxAux_none (id : ℤ) (zs : List ZoneRec) :
    ∀ (k : ℕ) (acc : Option ℕ), (∀ z ∈ zs, z.id ≠ id) →
      findLastZoneIdxAux id zs k acc = acc := by
  induction zs with
  | nil => intro k acc _; rfl
  | cons z rest ih =>
      intro k acc hall
      unfold findLastZoneIdxAux
      rw [if_neg (hall z (List.mem_cons_self z rest))]
      exact ih (k + 1) acc (fun w hw => hall w (List.mem_cons_of_mem z hw))

/-- C7: `setZoneID(id)` with an id not present in the area's zone collection
raises (ValueError) and leaves everything unchanged: the zone list --- and
with it every zone's aux set --- and the item's parent link are returned
exactly as given. -/
theorem setZoneID_missing_id_raises_unchanged (zones : List ZoneRec)
    (item : ZoneAuxItem) (id : ℤ) (hmiss : ∀ z ∈ zones, z.id ≠ id) :
    setZoneID (some zones) item id = (true, some zones, item) := by
  have h := findLastZoneIdxAux_none id zones 0 none hmiss
  simp [setZoneID, findLastZoneIdx, h]

/-- C7 witness: the theorem applied to a one-zone area and a missing id. -/
theorem setZoneID_missing_id_raises_unchanged_witness :
    setZoneID (some [{ id := 7, aux := [] }]) { itemId := 0, parent := none } 9
      = (true, some [{ id := 7, aux := [] }], { itemId := 0, parent := none }) :=
  setZoneID_missing_id_raises_unchanged [{ id := 7, aux := [] }]
    { itemId := 0, parent := none } 9 (by decide)

/-- State with its position fields replaced (the effect of `setPos`). -/
def FollowsRect.withPos (s : FollowsRect) (a b : ℚ) : FollowsRect :=
  { s with posX := a, posY := b }

/-- Applying the field mutations of `move` twice with the same available
width/height is the same as applying them once. -/
theorem moveState_moveState (s : FollowsRect) (w h : ℚ) :
    (s.moveState w h).moveState w h = s.moveState w h := by
  cases hre : s.realimage <;>
    simp [FollowsRect.moveState, FollowsRect.moveImage, FollowsRect.effWidth,
      FollowsRect.effHeight, hre]

/-- After the mutations of `move`, a further `move` with the same arguments
whose computed position matches the current one is a complete no-op. -/
theorem move_after_moveState (t : FollowsRect) (x y w h : ℚ)
    (halive : t.parentAlive = true)
    (hx : (t.computedNewPos x y w h).1 = t.posX)
    (hy : (t.computedNewPos x y w h).2 = t.posY) :
    (t.moveState w h).move x y w h = (t.moveState w h, ⟨false, false⟩) := by
  have halive2 : (t.moveState w h).parentAlive = true := halive
  have hx2 : ((t.moveState w h).computedNewPos x y w h).1 = (t.moveState w h).posX := hx
  have hy2 : ((t.moveState w h).computedNewPos x y w h).2 = (t.moveState w h).posY := hy
  simp [FollowsRect.move, halive2, hx2, hy2, moveState_moveState]

/-- C5: for every AuxiliaryImage_FollowsRect state with a live parent,
when the computed new parent-relative position equals the current position,
`move(x, y, w, h)` leaves the position and the bounding rect unchanged and
performs no `setPos` and no scene invalidation; and repeating any identical
`move` call is an idempotent no-op: the second call returns the state of the
first unchanged, with no repositioning and no invalidation. -/
theorem followsRect_move_idempotent (s : FollowsRect) (x y w h : ℚ)
    (halive : s.parentAlive = true) :
    (s.computedNewPos x y w h = (s.posX, s.posY) →
        (s.move x y w h).1.posX = s.posX
        ∧ (s.move x y w h).1.posY = s.posY
        ∧ (s.move x y w h).1.boundingRect = s.boundingRect
        ∧ (s.move x y w h).2 = ⟨false, false⟩)
    ∧ FollowsRect.move (s.move x y w h).1 x y w h
        = ((s.move x y w h).1, ⟨false, false⟩) := by
  constructor
  · intro hpos
    have h1 : (s.computedNewPos x y w h).1 = s.posX := by rw [hpos]
    have h2 : (s.computedNewPos x y w h).2 = s.posY := by rw [hpos]
    simp [FollowsRect.move, halive, h1, h2]
    exact ⟨rfl, rfl, rfl⟩
  · by_cases hguard : (s.computedNewPos x y w h).1 = s.posX
        ∧ (s.computedNewPos x y w h).2 = s.posY
    · obtain ⟨hg1, hg2⟩ := hguard
      have hmv : s.move x y w h = (s.moveState w h, ⟨false, false⟩) := by
        simp [FollowsRect.move, halive, hg1, hg2]
      rw [hmv]
      exact move_after_moveState s x y w h halive hg1 hg2
    · have hmv : s.move x y w h =
          ((s.withPos (s.computedNewPos x y w h).1 (s.computedNewPos x y w h).2).moveState
              w h,
           ⟨true, s.hasScene⟩) := by
        simp [FollowsRect.move, halive, hguard]
        rfl
      rw [hmv]
      exact move_after_moveState
        (s.withPos (s.computedNewPos x y w h).1 (s.computedNewPos x y w h).2)
        x y w h halive rfl rfl

/-- Concrete FollowsRect state used to witness C5: centered alignment,
real size 50×50, currently at the position that `move 0 0 60 60` computes. -/
def witnessFollows : FollowsRect :=
  { alignment := 0, realwidth := 50, realheight := 50, realimage := some 0,
    width := 50, height := 50, image := some (.whole 0), posX := 5, posY := 5,
    boundingRect := { x := 0, y := 0, w := 50, h := 50 }, parentX := 0, parentY := 0,
    parentAlive := true, hasScene := true }

/-- C5 witness: for the concrete state, the computed position matches, the
move performs no setPos and no scene update, and the repeated identical move
is a complete no-op. -/
theorem followsRect_move_idempotent_witness :
    witnessFollows.computedNewPos 0 0 60 60 = (witnessFollows.posX, witnessFollows.posY)
    ∧ (witnessFollows.move 0 0 60 60).2 = ⟨false, false⟩
    ∧ FollowsRect.move (witnessFollows.move 0 0 60 60).1 0 0 60 60
        = ((witnessFollows.move 0 0 60 60).1, ⟨false, false⟩) := by
  have hpos : witnessFollows.computedNewPos 0 0 60 60
      = (witnessFollows.posX, witnessFollows.posY) := by
    norm_num [FollowsRect.computedNewPos, FollowsRect.effWidth, FollowsRect.effHeight,
      witnessFollows, flagPresent, AlignLeft, AlignRight, AlignTop, AlignBottom]
  have h := followsRect_move_idempotent witnessFollows 0 0 60 60 rfl
  exact ⟨hpos, (h.1 hpos).2.2.2, h.2⟩

/-- The squared edge distance is nonnegative. -/
theorem zoneDist_nonneg (x y : ℤ) (rc : ZRect) : 0 ≤ zoneDist x y rc := by
  unfold zoneDist
  split_ifs <;> positivity

/-- `bestPair` returns none exactly on the empty list. -/
theorem bestPair_none_iff (x y : ℤ) (zs : List Zone) :
    bestPair x y zs = none ↔ zs = [] := by
  cases zs with
  | nil => simp [bestPair]
  | cons z rest =>
      cases hb : bestPair x y rest <;> simp [bestPair, hb] <;> split_ifs <;> simp

/-- `bestPair` returns the least squared edge distance over the list and the
index of its first occurrence: every earlier index has a strictly larger
distance. -/
theorem bestPair_spec (x y : ℤ) : ∀ (zs : List Zone) (j : ℕ) (d : ℤ),
    bestPair x y zs = some (j, d) →
    j < zs.length
    ∧ zoneDist x y (zs.getD j default).ZoneRect = d
    ∧ (∀ k, k < zs.length → d ≤ zoneDist x y (zs.getD k default).ZoneRect)
    ∧ (∀ k, k < zs.length → k < j → d < zoneDist x y (zs.getD k default).ZoneRect) := by
  intro zs
  induction zs with
  | nil => intro j d hbp; simp [bestPair] at hbp
  | cons z rest ih =>
      intro j d hbp
      cases hb : bestPair x y rest with
      | none =>
          have hrest : rest = [] := (bestPair_none_iff x y rest).mp hb
          subst hrest
          simp [bestPair] at hbp
          obtain ⟨hj, hd⟩ := hbp
          subst hj
          refine ⟨by simp, by simpa using hd, ?_, ?_⟩
          · intro k hk
            have hk0 : k = 0 := by
              simp only [List.length_cons, List.length_nil] at hk
              omega
            subst hk0
            simpa using le_of_eq hd.symm
          · intro k _ hk
            omega
      | some p =>
          obtain ⟨j2, d2⟩ := p
          obtain ⟨hj2, hget2, hle2, hlt2⟩ := ih j2 d2 hb
          replace hbp :
              (if zoneDist x y z.ZoneRect ≤ d2 then some (0, zoneDist x y z.ZoneRect)
                else some (j2 + 1, d2)) = some (j, d) := by
            rw [← hbp]
            unfold bestPair
            rw [hb]
          by_cases hc : zoneDist x y z.ZoneRect ≤ d2
          · rw [if_pos hc] at hbp
            simp at hbp
            obtain ⟨hj, hd⟩ := hbp
            subst hj
            refine ⟨by simp, by simpa using hd, ?_, ?_⟩
            · intro k hk
              cases k with
              | zero => simpa using le_of_eq hd.symm
              | succ k2 =>
                  have hdd2 : d ≤ d2 := hd ▸ hc
                  have hk2 : k2 < rest.length := by
                    simp only [List.length_cons] at hk
                    omega
                  calc d ≤ d2 := hdd2
                    _ ≤ zoneDist x y (rest.getD k2 default).ZoneRect := hle2 k2 hk2
            · intro k _ hk
              omega
          · rw [if_neg hc] at hbp
            simp at hbp
            obtain ⟨hj, hd⟩ := hbp
            subst hj
            subst hd
            push_neg at hc
            refine ⟨by simp only [List.length_cons]; omega, by simpa using hget2, ?_, ?_⟩
            · intro k hk
              cases k with
              | zero => exact le_of_lt (by simpa using hc)
              | succ k2 =>
                  have hk2 : k2 < rest.length := by
                    simp only [List.length_cons] at hk
                    omega
                  simpa using hle2 k2 hk2
            · intro k hk hkj
              cases k with
              | zero => simpa using hc
              | succ k2 =>
                  have hk2 : k2 < rest.length := by
                    simp only [List.length_cons] at hk
                    omega
                  simpa using hlt2 k2 hk2 (by omega)

/-- On a run of zones that do not contain the point, the loop of
`MapPositionToZoneID` computes the first argmin of the squared edge
distances, relative to the accumulated minimum `md`. -/
theorem mapAux_noContains (x y : ℤ) : ∀ (zs : List Zone) (i : ℕ) (md mi : ℤ),
    0 ≤ md → (∀ w ∈ zs, w.ZoneRect.containsPt x y = false) →
    mapAux x y zs i md mi =
      match bestPair x y zs with
      | none => mi
      | some (j, d) => if d < md then ((i + j : ℕ) : ℤ) else mi := by
  intro zs
  induction zs with
  | nil => intro i md mi _ _; simp [mapAux, bestPair]
  | cons z rest ih =>
      intro i md mi hmd hnc
      have hz : z.ZoneRect.containsPt x y = false := hnc z (List.mem_cons_self z rest)
      have hrest : ∀ w ∈ rest, w.ZoneRect.containsPt x y = false :=
        fun w hw => hnc w (List.mem_cons_of_mem z hw)
      have hne : ¬(md = -1) := by omega
      by_cases hlt : zoneDist x y z.ZoneRect < md
      · have h1 : mapAux x y (z :: rest) i md mi
            = mapAux x y rest (i + 1) (zoneDist x y z.ZoneRect) (i : ℤ) := by
          simp [mapAux, hz, hlt]
        rw [h1, ih (i + 1) (zoneDist x y z.ZoneRect) (i : ℤ) (zoneDist_nonneg x y _) hrest]
        cases hb : bestPair x y rest with
        | none =>
            simp [bestPair, hb, hlt]
        | some p =>
            obtain ⟨j2, d2⟩ := p
            by_cases hc : zoneDist x y z.ZoneRect ≤ d2
            · have hd2 : ¬(d2 < zoneDist x y z.ZoneRect) := not_lt.mpr hc
              simp [bestPair, hb, if_pos hc, hd2, hlt]
            · have hd2 : d2 < zoneDist x y z.ZoneRect := not_le.mp hc
              have hd2md : d2 < md := lt_trans hd2 hlt
              simp only [bestPair, hb, if_neg hc, hd2, if_pos hd2, if_pos hd2md]
              push_cast
              ring
      · have h1 : mapAux x y (z :: rest) i md mi = mapAux x y rest (i + 1) md mi := by
          simp [mapAux, hz, hlt, hne]
        rw [h1, ih (i + 1) md mi hmd hrest]
        cases hb : bestPair x y rest with
        | none =>
            simp [bestPair, hb, hlt]
        | some p =>
            obtain ⟨j2, d2⟩ := p
            by_cases hc : zoneDist x y z.ZoneRect ≤ d2
            · have hd2md : ¬(d2 < md) := by
                intro hcon
                exact hlt (lt_of_le_of_lt hc hcon)
              simp [bestPair, hb, if_pos hc, hd2md, hlt]
            · simp only [bestPair, hb, if_neg hc]
              by_cases hmd2 : d2 < md
              · simp only [if_pos hmd2]
                push_cast
                ring
              · simp only [if_neg hmd2]

/-- A containing zone ends the loop at its own index, whatever the
accumulator holds and whatever comes after it. -/
theorem mapAux_contains (x y : ℤ) : ∀ (pre : List Zone) (z : Zone) (post : List Zone)
    (i : ℕ) (md mi : ℤ),
    (∀ w ∈ pre, w.ZoneRect.containsPt x y = false) →
    z.ZoneRect.containsPt x y = true →
    mapAux x y (pre ++ z :: post) i md mi = ((i + pre.length : ℕ) : ℤ) := by
  intro pre
  induction pre with
  | nil =>
      intro z post i md mi _ hz
      simp [mapAux, hz]
  | cons w pre ih =>
      intro z post i md mi hnc hz
      have hw : w.ZoneRect.containsPt x y = false := hnc w (List.mem_cons_self w pre)
      have hpre : ∀ u ∈ pre, u.ZoneRect.containsPt x y = false :=
        fun u hu => hnc u (List.mem_cons_of_mem w hu)
      by_cases hcond : zoneDist x y w.ZoneRect < md ∨ md = -1
      · have h1 : mapAux x y ((w :: pre) ++ z :: post) i md mi
            = mapAux x y (pre ++ z :: post) (i + 1) (zoneDist x y w.ZoneRect) (i : ℤ) := by
          simp [mapAux, hw, hcond]
        rw [h1, ih z post (i + 1) _ _ hpre hz]
        simp only [List.length_cons]
        push_cast
        ring
      · have h1 : mapAux x y ((w :: pre) ++ z :: post) i md mi
            = mapAux x y (pre ++ z :: post) (i + 1) md mi := by
          simp [mapAux, hw, hcond]
        rw [h1, ih z post (i + 1) _ _ hpre hz]
        simp only [List.length_cons]
        push_cast
        ring

/-- The loop never returns a negative index once the accumulator holds one. -/
theorem mapAux_nonneg (x y : ℤ) : ∀ (zs : List Zone) (i : ℕ) (md mi : ℤ),
    0 ≤ mi → 0 ≤ mapAux x y zs i md mi := by
  intro zs
  induction zs with
  | nil => intro i md mi hmi; simpa [mapAux] using hmi
  | cons z rest ih =>
      intro i md mi hmi
      by_cases hz : z.ZoneRect.containsPt x y
      · simp [mapAux, hz]
      · by_cases hcond : zoneDist x y z.ZoneRect < md ∨ md = -1
        · simpa [mapAux, hz, hcond] using ih (i + 1) _ (i : ℤ) (by positivity)
        · simpa [mapAux, hz, hcond] using ih (i + 1) md mi hmi

/-- The top-level loop result is nonnegative on a nonempty zone list. -/
theorem mapAux_top_nonneg (x y : ℤ) (z : Zone) (rest : List Zone) :
    0 ≤ mapAux x y (z :: rest) 0 (-1) (-1) := by
  by_cases hz : z.ZoneRect.containsPt x y
  · simp [mapAux, hz]
  · have hcond : zoneDist x y z.ZoneRect < -1 ∨ (-1 : ℤ) = -1 := Or.inr rfl
    simpa [mapAux, hz, hcond] using
      mapAux_nonneg x y rest 1 (zoneDist x y z.ZoneRect) 0 le_rfl

/-- On a nonempty list with no containing zone, the loop returns exactly the
index chosen by `bestPair`. -/
theorem mapAux_argmin (x y : ℤ) (z : Zone) (rest : List Zone)
    (hnc : ∀ w ∈ z :: rest, w.ZoneRect.containsPt x y = false) :
    ∃ j d, bestPair x y (z :: rest) = some (j, d)
      ∧ mapAux x y (z :: rest) 0 (-1) (-1) = (j : ℤ) := by
  have hz : z.ZoneRect.containsPt x y = false := hnc z (List.mem_cons_self z rest)
  have hrest : ∀ w ∈ rest, w.ZoneRect.containsPt x y = false :=
    fun w hw => hnc w (List.mem_cons_of_mem z hw)
  have hcond : zoneDist x y z.ZoneRect < -1 ∨ (-1 : ℤ) = -1 := Or.inr rfl
  have h1 : mapAux x y (z :: rest) 0 (-1) (-1)
      = mapAux x y rest 1 (zoneDist x y z.ZoneRect) 0 := by
    simp [mapAux, hz, hcond]
  rw [h1, mapAux_noContains x y rest 1 (zoneDist x y z.ZoneRect) 0
    (zoneDist_nonneg x y _) hrest]
  cases hb : bestPair x y rest with
  | none =>
      refine ⟨0, zoneDist x y z.ZoneRect, by simp [bestPair, hb], by simp⟩
  | some p =>
      obtain ⟨j2, d2⟩ := p
      by_cases hc : zoneDist x y z.ZoneRect ≤ d2
      · have hd2 : ¬(d2 < zoneDist x y z.ZoneRect) := not_lt.mpr hc
        exact ⟨0, zoneDist x y z.ZoneRect, by simp [bestPair, hb, if_pos hc],
          by simp [hd2]⟩
      · have hd2 : d2 < zoneDist x y z.ZoneRect := not_le.mp hc
        refine ⟨j2 + 1, d2, by simp [bestPair, hb, if_neg hc], ?_⟩
        simp only [if_pos hd2]
        push_cast
        ring

/-- C3: `MapPositionToZoneID` (with `get_id=False`): (a) it returns the
sentinel -1 exactly when the zone list is empty; (b) when a zone contains
the point, it returns the index of the first containing zone, independently
of everything after it; (c) otherwise it returns the index of the zone of
minimum squared edge distance, earlier ties winning (every strictly earlier
index has strictly larger distance). -/
theorem mapPositionToZoneID_spec (zones : List Zone) (x y : ℤ) :
    (MapPositionToZoneID zones x y false = -1 ↔ zones = [])
    ∧ (∀ pre z post, (∀ w ∈ pre, w.ZoneRect.containsPt x y = false) →
        z.ZoneRect.containsPt x y = true →
        MapPositionToZoneID (pre ++ z :: post) x y false = (pre.length : ℤ))
    ∧ ((∀ w ∈ zones, w.ZoneRect.containsPt x y = false) → zones ≠ [] →
        ∃ j, j < zones.length
          ∧ MapPositionToZoneID zones x y false = (j : ℤ)
          ∧ (∀ k, k < zones.length →
              zoneDist x y (zones.getD j default).ZoneRect
                ≤ zoneDist x y (zones.getD k default).ZoneRect)
          ∧ (∀ k, k < zones.length → k < j →
              zoneDist x y (zones.getD j default).ZoneRect
                < zoneDist x y (zones.getD k default).ZoneRect)) := by
  refine ⟨⟨?_, ?_⟩, ?_, ?_⟩
  · intro hres
    by_contra hne
    obtain ⟨z, rest, rfl⟩ : ∃ z rest, zones = z :: rest := by
      cases zones with
      | nil => exact absurd rfl hne
      | cons z rest => exact ⟨z, rest, rfl⟩
    have hm : 0 ≤ mapAux x y (z :: rest) 0 (-1) (-1) := mapAux_top_nonneg x y z rest
    have hm1 : ¬(mapAux x y (z :: rest) 0 (-1) (-1) = -1) := by omega
    unfold MapPositionToZoneID at hres
    rw [if_neg hm1] at hres
    simp at hres
    omega
  · intro hres
    subst hres
    rfl
  · intro pre z post hnc hz
    have hm : mapAux x y (pre ++ z :: post) 0 (-1) (-1) = ((0 + pre.length : ℕ) : ℤ) :=
      mapAux_contains x y pre z post 0 (-1) (-1) hnc hz
    have hm1 : ¬(mapAux x y (pre ++ z :: post) 0 (-1) (-1) = -1) := by
      rw [hm]; omega
    unfold MapPositionToZoneID
    rw [if_neg hm1]
    simpa using hm
  · intro hnc hne
    obtain ⟨z, rest, rfl⟩ : ∃ z rest, zones = z :: rest := by
      cases zones with
      | nil => exact absurd rfl hne
      | cons z rest => exact ⟨z, rest, rfl⟩
    obtain ⟨j, d, hb, hm⟩ := mapAux_argmin x y z rest hnc
    obtain ⟨hj, hget, hle, hlt⟩ := bestPair_spec x y (z :: rest) j d hb
    have hm1 : ¬(mapAux x y (z :: rest) 0 (-1) (-1) = -1) := by
      rw [hm]; omega
    refine ⟨j, hj, ?_, ?_, ?_⟩
    · unfold MapPositionToZoneID
      rw [if_neg hm1]
      simpa using hm
    · intro k hk
      rw [hget]
      exact hle k hk
    · intro k hk hkj
      rw [hget]
      exact hlt k hk hkj

/-- Zones used to witness C3. -/
def zoneA : Zone := { id := 7, ZoneRect := { l := 0, t := 0, r := 9, b := 9 } }

/-- Second zone used to witness C3. -/
def zoneB : Zone := { id := 8, ZoneRect := { l := 20, t := 0, r := 29, b := 9 } }

/-- C3 witness: the point (25,5) lies in the second zone only, and
`MapPositionToZoneID` returns index 1. -/
theorem mapPositionToZoneID_spec_witness :
    MapPositionToZoneID [zoneA, zoneB] 25 5 false = 1 := by
  have h := (mapPositionToZoneID_spec [zoneA, zoneB] 25 5).2.1 [zoneA] zoneB []
    (by decide) (by decide)
  simpa using h

end Spritelib
